import Mathlib

/-!
Verification of the MAC-address administration scripts.

This file gives a shallow embedding of the two Python scripts of the
repository, `mac_add.py` (the FreeRADIUS enrollment tool) and
`read_log.py` (the authorization-aware log monitor), and proves or
refutes the frozen claims about them.

Strings are modelled as `List Char`.  Python's `str.lower` agrees with
`Char.toLower` (ASCII basic-latin lowering) on every input the claims
range over, so character lowering is `Char.toLower`.  File-system
effects are modelled by an explicit `FileState`; code that lets an
exception propagate is modelled with `Except`.
-/

/-- Character class `[a-fA-F0-9]` of the Python regexes, as the explicit
set of characters it denotes. -/
def hexChars : List Char :=
  ['0', 'A', '1', 'B', '2', 'C', '3', 'D', '4', 'E', '5', 'F',
   '6', 'a', '7', 'b', '8', 'c', '9', 'd', 'e', 'f']

/-- Character class `[a-f0-9]` used by `normalize_mac_address`'s final
check in `mac_add.py`. -/
def lowerHexChars : List Char :=
  ['0', 'a', '1', 'b', '2', 'c', '3', 'd', '4', 'e', '5', 'f', '6', '7', '8', '9']

/-- Membership in the regex class `[a-fA-F0-9]`. -/
def isHexChar (c : Char) : Bool := decide (c ∈ hexChars)

/-- Membership in the regex class `[a-f0-9]`. -/
def isLowerHexChar (c : Char) : Bool := decide (c ∈ lowerHexChars)

/-- Membership in the regex class `[:-]` (the separator class of the
colon/dash patterns). -/
def isSepCD (c : Char) : Bool := decide (c = ':' ∨ c = '-')

/-- Python `re.match` with a pattern of the form `^...$`: the pattern
must match the whole string, except that `$` also matches just before a
single trailing newline.  `p` is the matcher for the pattern core. -/
def pyAnchored (p : List Char → Bool) (s : List Char) : Bool :=
  p s || (decide (s.getLast? = some '\n') && p s.dropLast)

/-- Regex core `([a-fA-F0-9]{2}[:-]){5}[a-fA-F0-9]{2}` of
`validate_mac_format` in `mac_add.py` (fixed length 17; each separator
is independently a colon or a dash). -/
def pat1 : List Char → Bool
  | [a, b, s1, c, d, s2, e, f, s3, g, h, s4, i, j, s5, k, l] =>
    isHexChar a && isHexChar b && isSepCD s1 &&
    isHexChar c && isHexChar d && isSepCD s2 &&
    isHexChar e && isHexChar f && isSepCD s3 &&
    isHexChar g && isHexChar h && isSepCD s4 &&
    isHexChar i && isHexChar j && isSepCD s5 &&
    isHexChar k && isHexChar l
  | _ => false

/-- Regex core `([a-fA-F0-9]{2}_){5}[a-fA-F0-9]{2}` of
`validate_mac_format` in `mac_add.py`. -/
def pat2 : List Char → Bool
  | [a, b, s1, c, d, s2, e, f, s3, g, h, s4, i, j, s5, k, l] =>
    isHexChar a && isHexChar b && decide (s1 = '_') &&
    isHexChar c && isHexChar d && decide (s2 = '_') &&
    isHexChar e && isHexChar f && decide (s3 = '_') &&
    isHexChar g && isHexChar h && decide (s4 = '_') &&
    isHexChar i && isHexChar j && decide (s5 = '_') &&
    isHexChar k && isHexChar l
  | _ => false

/-- Regex core `[a-fA-F0-9]{12}` of `validate_mac_format` in
`mac_add.py`. -/
def pat3 (m : List Char) : Bool :=
  decide (m.length = 12) && m.all isHexChar

/-- Regex core `([a-fA-F0-9]{4}\.){2}[a-fA-F0-9]{4}` of
`validate_mac_format` in `mac_add.py` (Cisco dotted quads). -/
def pat4 : List Char → Bool
  | [a, b, c, d, p1, e, f, g, h, p2, i, j, k, l] =>
    isHexChar a && isHexChar b && isHexChar c && isHexChar d && decide (p1 = '.') &&
    isHexChar e && isHexChar f && isHexChar g && isHexChar h && decide (p2 = '.') &&
    isHexChar i && isHexChar j && isHexChar k && isHexChar l
  | _ => false

/-- Source: `validate_mac_format` in `mac_add.py` — `re.match` of the
four anchored patterns, any success accepts. -/
def validate_mac_format (m : List Char) : Bool :=
  pyAnchored pat1 m || pyAnchored pat2 m || pyAnchored pat3 m || pyAnchored pat4 m

/-- The string produced by `re.sub(r'[^a-fA-F0-9]', '', mac.lower())`
in `normalize_mac_address` of `mac_add.py`: lowercase, then drop every
character outside the hex class. -/
def pyCleaned (m : List Char) : List Char :=
  (m.map Char.toLower).filter isHexChar

/-- Regex core `[a-f0-9]{12}` of the final check in
`normalize_mac_address`. -/
def exact12lower (m : List Char) : Bool :=
  decide (m.length = 12) && m.all isLowerHexChar

/-- Source: `normalize_mac_address` in `mac_add.py`.  Returns `none`
where the Python code raises `ValueError` (invalid format). -/
def normalize_mac_address (mac : List Char) : Option (List Char) :=
  let cleaned := pyCleaned mac
  if pyAnchored exact12lower cleaned then some cleaned else none

/-- Source: `normalize_mac` in `read_log.py` —
`re.sub(r'[:-]', '', mac_address).lower()`.  Strips colons and dashes,
then lowercases; performs no validation. -/
def normalize_mac (mac : List Char) : List Char :=
  (mac.filter (fun c => !(isSepCD c))).map Char.toLower

/-- State of the flat authorization file as seen by one access:
missing, unreadable (permission denied), or readable with a given
text. -/
inductive FileState where
  | absent : FileState
  | denied : FileState
  | content : List Char → FileState
deriving DecidableEq

/-- Source: `is_mac_authorized` in `read_log.py`.  Substring test on
the file text; `FileNotFoundError` and `PermissionError` are both
caught and turned into `False` (with a printed warning). -/
def is_mac_authorized (normalized_mac : List Char) (fs : FileState) : Bool :=
  match fs with
  | .content text => decide (normalized_mac <:+: text)
  | .absent => false
  | .denied => false

deriving instance DecidableEq for Except

/-- Source: `is_mac_already_exists` in `mac_add.py`.  Substring test on
the file text; only `FileNotFoundError` is caught (giving `False`), so
a `PermissionError` propagates — modelled as `Except.error`. -/
def is_mac_already_exists (fs : FileState) (normalized_mac : List Char) :
    Except Unit Bool :=
  match fs with
  | .content text => .ok (decide (normalized_mac <:+: text))
  | .absent => .ok false
  | .denied => .error ()

/-- The credential line (without its newline) that `mac_add.py` builds
for a normalized MAC. -/
def recordLine (nm : List Char) : List Char :=
  nm ++ (" Cleartext-Password := \"").toList ++ nm ++ ['"']

/-- The `new_entry` string of `add_mac_to_users_file` (record line plus
trailing newline). -/
def newEntry (nm : List Char) : List Char :=
  recordLine nm ++ ['\n']

/-- Source: `add_mac_to_users_file` in `mac_add.py`.  `existing` is the
prior file content (`none` when the open raises `FileNotFoundError`,
read as empty).  The function rewrites the file as: the new entry,
then a separating newline when the old content is nonempty and does not
already start with one, then the old content. -/
def add_mac_to_users_file (existing : Option (List Char)) (nm : List Char) :
    List Char :=
  newEntry nm ++
    (if existing.getD [] ≠ [] ∧ (existing.getD []).head? ≠ some '\n'
      then ['\n'] else []) ++
    existing.getD []

/-- One attempt of the monitor's regex
`([0-9A-Fa-f]{2}[:-]){5}([0-9A-Fa-f]{2})` (`mac_pattern` in
`read_log.py`) anchored at the head of the list: on success returns
the 17 matched characters (`match.group(0)`). -/
def mac_pattern_matchAt : List Char → Option (List Char)
  | a :: b :: s1 :: c :: d :: s2 :: e :: f :: s3 :: g :: h :: s4 ::
      i :: j :: s5 :: k :: l :: _ =>
    if isHexChar a && isHexChar b && isSepCD s1 &&
        isHexChar c && isHexChar d && isSepCD s2 &&
        isHexChar e && isHexChar f && isSepCD s3 &&
        isHexChar g && isHexChar h && isSepCD s4 &&
        isHexChar i && isHexChar j && isSepCD s5 &&
        isHexChar k && isHexChar l
    then some [a, b, s1, c, d, s2, e, f, s3, g, h, s4, i, j, s5, k, l]
    else none
  | _ => none

/-- Python `mac_pattern.search(line)`: leftmost match of the monitor's
MAC regex in a line, or `none`. -/
def mac_pattern_search : List Char → Option (List Char)
  | [] => none
  | c :: rest =>
    match mac_pattern_matchAt (c :: rest) with
    | some m => some m
    | none => mac_pattern_search rest

/-- Observable steps of the monitoring loop of `monitor_log_for_mac`. -/
inductive MonEvent where
  | authorized : List Char → MonEvent
  | executed : List Char → MonEvent
deriving DecidableEq

/-- Source: the body of the `while True` loop of `monitor_log_for_mac`
in `read_log.py`, run over the stream of lines appended to the log
after monitoring starts (the code seeks to end-of-file first, and the
sleep between empty reads has no observable effect).  A line with no
regex match is skipped; an authorized match is logged and monitoring
continues; an unauthorized match runs the placeholder command once and
the process exits (`sys.exit(0)`, or `sys.exit(1)` if the command
raises), so no later line is ever processed. -/
def monitor_log_for_mac (fs : FileState) : List (List Char) → List MonEvent
  | [] => []
  | line :: rest =>
    match mac_pattern_search line with
    | none => monitor_log_for_mac fs rest
    | some m =>
      let nm := normalize_mac m
      if is_mac_authorized nm fs then
        MonEvent.authorized nm :: monitor_log_for_mac fs rest
      else
        [MonEvent.executed nm]

/-- External effects the enrollment tool can attempt. -/
inductive MainEffect where
  | backup : MainEffect
  | writeUsers : MainEffect
  | restartService : MainEffect
  | rebootServer : MainEffect
deriving DecidableEq

/-- How a run of the enrollment tool's `main` ends. -/
inductive MainOutcome where
  | exited : Nat → MainOutcome
  | completed : MainOutcome
deriving DecidableEq

/-- Source: `main` in `mac_add.py`.  Arguments: whether the process is
elevated (`os.geteuid() == 0`), the `--dry-run` and `--no-reboot`
flags, the positional MAC argument, the operator's response to the
"Continue anyway?" prompt, and the state of the users file.  Returns
the external effects attempted, in order, and how the run ends.
Control flow follows the source: root check (skipped under dry-run),
format validation, normalization (a `ValueError` is caught and exits 1),
the dry-run early return, the existence check (whose uncaught
`PermissionError` reaches the generic handler and exits 1), the
confirmation prompt when the MAC already exists, then backup (only when
the file exists), write, and restart or reboot.  Keyboard interrupts
are not modelled. -/
def mac_add_main (elevated dryRun noReboot : Bool)
    (mac_address response : List Char) (fs : FileState) :
    List MainEffect × MainOutcome :=
  if !elevated && !dryRun then ([], .exited 1)
  else if !(validate_mac_format mac_address) then ([], .exited 1)
  else
    match normalize_mac_address mac_address with
    | none => ([], .exited 1)
    | some nm =>
      if dryRun then ([], .completed)
      else
        match is_mac_already_exists fs nm with
        | .error _ => ([], .exited 1)
        | .ok already =>
          if already && !(response.map Char.toLower == ("y").toList) then
            ([], .exited 0)
          else
            match fs with
            | .content _ =>
              ([.backup, .writeUsers,
                if noReboot then .restartService else .rebootServer],
               .completed)
            | _ =>
              ([.writeUsers,
                if noReboot then .restartService else .rebootServer],
               .completed)

/-! Helper lemmas about the character classes. -/

/-- Lowering a character of the class `[a-fA-F0-9]` lands in the class
`[a-f0-9]` (and in particular stays hex). -/
lemma hex_toLower (c : Char) (h : isHexChar c = true) :
    isHexChar (Char.toLower c) = true ∧ isLowerHexChar (Char.toLower c) = true := by
  have hm : c ∈ hexChars := by simpa [isHexChar] using h
  fin_cases hm <;> exact ⟨by decide, by decide⟩

/-- Lowering a colon or dash yields a non-hex character. -/
lemma sep_toLower (s : Char) (h : isSepCD s = true) :
    isHexChar (Char.toLower s) = false := by
  have hm : s = ':' ∨ s = '-' := by simpa [isSepCD] using h
  rcases hm with rfl | rfl <;> decide

/-- A character of the class `[a-f0-9]` is fixed by lowering, is hex,
and is neither a separator nor a newline. -/
lemma lowerHex_fix (c : Char) (h : isLowerHexChar c = true) :
    Char.toLower c = c ∧ isHexChar c = true ∧ isSepCD c = false ∧ c ≠ '\n' := by
  have hm : c ∈ lowerHexChars := by simpa [isLowerHexChar] using h
  fin_cases hm <;> exact ⟨by decide, by decide, by decide, by decide⟩

/-- A list ending in a known last element is its `dropLast` followed by
that element. -/
lemma eq_dropLast_append {α : Type} {l : List α} {c : α}
    (h : l.getLast? = some c) : l = l.dropLast ++ [c] := by
  induction l with
  | nil => simp at h
  | cons a t ih =>
    cases t with
    | nil => simp_all
    | cons b t' =>
      rw [List.getLast?_cons_cons] at h
      have := ih h
      simpa [List.dropLast] using this

/-- Removing a trailing newline does not change the cleaned string of
`normalize_mac_address`. -/
lemma pyCleaned_append_nl (l : List Char) :
    pyCleaned (l ++ ['\n']) = pyCleaned l := by
  have h1 : isHexChar '\n' = false := by decide
  simp [pyCleaned, List.filter_append, h1]

/-! Each `validate_mac_format` pattern forces the cleaned string to be
exactly twelve lowercase hex characters. -/

/-- Colon/dash pattern: cleaning yields twelve lowercase hex chars. -/
lemma pat1_cleaned (m : List Char) (hp : pat1 m = true) :
    exact12lower (pyCleaned m) = true := by
  unfold pat1 at hp
  split at hp
  case _ a b s1 c d s2 e f s3 g h s4 i j s5 k l =>
    simp only [Bool.and_eq_true] at hp
    obtain ⟨⟨⟨⟨⟨⟨⟨⟨⟨⟨⟨⟨⟨⟨⟨⟨ha, hb⟩, hs1⟩, hc⟩, hd⟩, hs2⟩, he⟩, hf⟩, hs3⟩,
      hg⟩, hh⟩, hs4⟩, hi⟩, hj⟩, hs5⟩, hk⟩, hl⟩ := hp
    obtain ⟨ha1, ha2⟩ := hex_toLower a ha
    obtain ⟨hb1, hb2⟩ := hex_toLower b hb
    obtain ⟨hc1, hc2⟩ := hex_toLower c hc
    obtain ⟨hd1, hd2⟩ := hex_toLower d hd
    obtain ⟨he1, he2⟩ := hex_toLower e he
    obtain ⟨hf1, hf2⟩ := hex_toLower f hf
    obtain ⟨hg1, hg2⟩ := hex_toLower g hg
    obtain ⟨hh1, hh2⟩ := hex_toLower h hh
    obtain ⟨hi1, hi2⟩ := hex_toLower i hi
    obtain ⟨hj1, hj2⟩ := hex_toLower j hj
    obtain ⟨hk1, hk2⟩ := hex_toLower k hk
    obtain ⟨hl1, hl2⟩ := hex_toLower l hl
    have hs1' := sep_toLower s1 hs1
    have hs2' := sep_toLower s2 hs2
    have hs3' := sep_toLower s3 hs3
    have hs4' := sep_toLower s4 hs4
    have hs5' := sep_toLower s5 hs5
    simp [pyCleaned, exact12lower, List.filter, ha1, hb1, hc1, hd1, he1, hf1,
      hg1, hh1, hi1, hj1, hk1, hl1, hs1', hs2', hs3', hs4', hs5',
      ha2, hb2, hc2, hd2, he2, hf2, hg2, hh2, hi2, hj2, hk2, hl2]
  case _ => exact absurd hp (by simp)

/-- Underscore pattern: cleaning yields twelve lowercase hex chars. -/
lemma pat2_cleaned (m : List Char) (hp : pat2 m = true) :
    exact12lower (pyCleaned m) = true := by
  unfold pat2 at hp
  split at hp
  case _ a b s1 c d s2 e f s3 g h s4 i j s5 k l =>
    simp only [Bool.and_eq_true, decide_eq_true_eq] at hp
    obtain ⟨⟨⟨⟨⟨⟨⟨⟨⟨⟨⟨⟨⟨⟨⟨⟨ha, hb⟩, hs1⟩, hc⟩, hd⟩, hs2⟩, he⟩, hf⟩, hs3⟩,
      hg⟩, hh⟩, hs4⟩, hi⟩, hj⟩, hs5⟩, hk⟩, hl⟩ := hp
    subst hs1 hs2 hs3 hs4 hs5
    obtain ⟨ha1, ha2⟩ := hex_toLower a ha
    obtain ⟨hb1, hb2⟩ := hex_toLower b hb
    obtain ⟨hc1, hc2⟩ := hex_toLower c hc
    obtain ⟨hd1, hd2⟩ := hex_toLower d hd
    obtain ⟨he1, he2⟩ := hex_toLower e he
    obtain ⟨hf1, hf2⟩ := hex_toLower f hf
    obtain ⟨hg1, hg2⟩ := hex_toLower g hg
    obtain ⟨hh1, hh2⟩ := hex_toLower h hh
    obtain ⟨hi1, hi2⟩ := hex_toLower i hi
    obtain ⟨hj1, hj2⟩ := hex_toLower j hj
    obtain ⟨hk1, hk2⟩ := hex_toLower k hk
    obtain ⟨hl1, hl2⟩ := hex_toLower l hl
    have hund : isHexChar '_' = false := by decide
    have hund2 : isHexChar (Char.toLower '_') = false := by decide
    simp [pyCleaned, exact12lower, List.filter, hund, hund2,
      ha1, hb1, hc1, hd1, he1, hf1,
      hg1, hh1, hi1, hj1, hk1, hl1,
      ha2, hb2, hc2, hd2, he2, hf2, hg2, hh2, hi2, hj2, hk2, hl2]
  case _ => exact absurd hp (by simp)

/-- Bare pattern: cleaning a string of twelve hex chars lowers them. -/
lemma pat3_cleaned (m : List Char) (hp : pat3 m = true) :
    exact12lower (pyCleaned m) = true := by
  simp only [pat3, Bool.and_eq_true, decide_eq_true_eq, List.all_eq_true] at hp
  obtain ⟨hlen, hall⟩ := hp
  have hself : (m.map Char.toLower).filter isHexChar = m.map Char.toLower := by
    rw [List.filter_eq_self]
    intro c hc
    obtain ⟨d, hd, rfl⟩ := List.mem_map.mp hc
    exact (hex_toLower d (hall d hd)).1
  simp only [pyCleaned, hself, exact12lower, Bool.and_eq_true,
    decide_eq_true_eq, List.all_eq_true, List.length_map]
  refine ⟨hlen, ?_⟩
  intro c hc
  obtain ⟨d, hd, rfl⟩ := List.mem_map.mp hc
  exact (hex_toLower d (hall d hd)).2

/-- Dotted-quad pattern: cleaning yields twelve lowercase hex chars. -/
lemma pat4_cleaned (m : List Char) (hp : pat4 m = true) :
    exact12lower (pyCleaned m) = true := by
  unfold pat4 at hp
  split at hp
  case _ a b c d p1 e f g h p2 i j k l =>
    simp only [Bool.and_eq_true, decide_eq_true_eq] at hp
    obtain ⟨⟨⟨⟨⟨⟨⟨⟨⟨⟨⟨⟨⟨ha, hb⟩, hc⟩, hd⟩, hp1⟩, he⟩, hf⟩, hg⟩, hh⟩, hp2⟩,
      hi⟩, hj⟩, hk⟩, hl⟩ := hp
    subst hp1 hp2
    obtain ⟨ha1, ha2⟩ := hex_toLower a ha
    obtain ⟨hb1, hb2⟩ := hex_toLower b hb
    obtain ⟨hc1, hc2⟩ := hex_toLower c hc
    obtain ⟨hd1, hd2⟩ := hex_toLower d hd
    obtain ⟨he1, he2⟩ := hex_toLower e he
    obtain ⟨hf1, hf2⟩ := hex_toLower f hf
    obtain ⟨hg1, hg2⟩ := hex_toLower g hg
    obtain ⟨hh1, hh2⟩ := hex_toLower h hh
    obtain ⟨hi1, hi2⟩ := hex_toLower i hi
    obtain ⟨hj1, hj2⟩ := hex_toLower j hj
    obtain ⟨hk1, hk2⟩ := hex_toLower k hk
    obtain ⟨hl1, hl2⟩ := hex_toLower l hl
    have hdot : isHexChar '.' = false := by decide
    have hdot2 : isHexChar (Char.toLower '.') = false := by decide
    simp [pyCleaned, exact12lower, List.filter, hdot, hdot2,
      ha1, hb1, hc1, hd1, he1, hf1,
      hg1, hh1, hi1, hj1, hk1, hl1,
      ha2, hb2, hc2, hd2, he2, hf2, hg2, hh2, hi2, hj2, hk2, hl2]
  case _ => exact absurd hp (by simp)

/-- Any of the four pattern cores forces a clean twelve-hex result. -/
lemma patAny_cleaned (m : List Char)
    (hp : (pat1 m || pat2 m || pat3 m || pat4 m) = true) :
    exact12lower (pyCleaned m) = true := by
  simp only [Bool.or_eq_true] at hp
  rcases hp with ((h | h) | h) | h
  · exact pat1_cleaned m h
  · exact pat2_cleaned m h
  · exact pat3_cleaned m h
  · exact pat4_cleaned m h

/-- After `validate_mac_format` succeeds, `normalize_mac_address`
succeeds and returns the cleaned string, which is exactly twelve
lowercase hex characters. -/
lemma validate_normalize (m : List Char) (hv : validate_mac_format m = true) :
    normalize_mac_address m = some (pyCleaned m) ∧
      exact12lower (pyCleaned m) = true := by
  have h12 : exact12lower (pyCleaned m) = true := by
    simp only [validate_mac_format, pyAnchored, Bool.or_eq_true,
      Bool.and_eq_true, decide_eq_true_eq] at hv
    have key : ∀ p : List Char → Bool,
        (∀ x, p x = true → exact12lower (pyCleaned x) = true) →
        (p m = true ∨ m.getLast? = some '\n' ∧ p m.dropLast = true) →
        exact12lower (pyCleaned m) = true := by
      intro p hgood hcase
      rcases hcase with h | ⟨hlast, h⟩
      · exact hgood m h
      · have hm := eq_dropLast_append hlast
        rw [hm, pyCleaned_append_nl]
        exact hgood _ h
    rcases hv with ((h | h) | h) | h
    · exact key pat1 (fun x hx => patAny_cleaned x (by simp [hx])) h
    · exact key pat2 (fun x hx => patAny_cleaned x (by simp [hx])) h
    · exact key pat3 (fun x hx => patAny_cleaned x (by simp [hx])) h
    · exact key pat4 (fun x hx => patAny_cleaned x (by simp [hx])) h
  refine ⟨?_, h12⟩
  simp [normalize_mac_address, pyAnchored, h12]

/-! Arithmetic facts about ASCII lowering. -/

/-- Converting a small scalar value to a character and back is the
identity. -/
lemma char_toNat_ofNat (n : Nat) (h : n < 55296) : (Char.ofNat n).toNat = n := by
  have hv : n.isValidChar := Or.inl h
  rw [Char.ofNat, dif_pos hv]
  simp [Char.ofNatAux, Char.toNat, UInt32.toNat]

/-- Two characters with the same scalar value are equal. -/
lemma char_eq_of_toNat {c d : Char} (h : c.toNat = d.toNat) : c = d :=
  Char.ext (UInt32.toNat.inj h)

/-- ASCII lowering is idempotent. -/
lemma toLower_toLower (c : Char) : c.toLower.toLower = c.toLower := by
  unfold Char.toLower
  by_cases h : c.toNat ≥ 65 ∧ c.toNat ≤ 90
  · rw [if_pos h]
    have ht : (Char.ofNat (c.toNat + 32)).toNat = c.toNat + 32 :=
      char_toNat_ofNat _ (by omega)
    rw [if_neg (by rw [ht]; omega)]
  · rw [if_neg h, if_neg h]

/-- Lowering never produces a colon or a dash from a non-separator. -/
lemma notSep_toLower (c : Char) (h : isSepCD c = false) :
    isSepCD c.toLower = false := by
  unfold Char.toLower
  by_cases hc : c.toNat ≥ 65 ∧ c.toNat ≤ 90
  · rw [if_pos hc]
    have ht : (Char.ofNat (c.toNat + 32)).toNat = c.toNat + 32 :=
      char_toNat_ofNat _ (by omega)
    cases hs : isSepCD (Char.ofNat (c.toNat + 32)) with
    | false => rfl
    | true =>
      exfalso
      have hm : Char.ofNat (c.toNat + 32) = ':' ∨ Char.ofNat (c.toNat + 32) = '-' := by
        simpa [isSepCD] using hs
      rcases hm with he | he
      · have h2 := congrArg Char.toNat he
        rw [ht] at h2
        have h3 : (':' : Char).toNat = 58 := by decide
        rw [h3] at h2
        omega
      · have h2 := congrArg Char.toNat he
        rw [ht] at h2
        have h3 : ('-' : Char).toNat = 45 := by decide
        rw [h3] at h2
        omega
  · rw [if_neg hc]
    exact h

/-- Only `'y'` and `'Y'` lower to `'y'`. -/
lemma toLower_eq_y (c : Char) (h : c.toLower = 'y') : c = 'y' ∨ c = 'Y' := by
  unfold Char.toLower at h
  by_cases hc : c.toNat ≥ 65 ∧ c.toNat ≤ 90
  · rw [if_pos hc] at h
    right
    have ht := congrArg Char.toNat h
    rw [char_toNat_ofNat _ (by omega)] at ht
    have hy : ('y' : Char).toNat = 121 := by decide
    rw [hy] at ht
    have hY : ('Y' : Char).toNat = 89 := by decide
    exact char_eq_of_toNat (by omega)
  · rw [if_neg hc] at h
    exact Or.inl h

/-- The whole-string lowering of the prompt response equals `"y"` only
for the responses `"y"` and `"Y"`. -/
lemma map_toLower_eq_y (resp : List Char) :
    resp.map Char.toLower = ("y").toList ↔
      resp = ("y").toList ∨ resp = ("Y").toList := by
  constructor
  · intro h
    cases resp with
    | nil => simp at h
    | cons c t =>
      cases t with
      | nil =>
        have hc : c.toLower = 'y' := by simpa using h
        rcases toLower_eq_y c hc with rfl | rfl
        · exact Or.inl rfl
        · exact Or.inr rfl
      | cons d t' => simp at h
  · intro h
    rcases h with rfl | rfl <;> decide

/-! Idempotence of the two normalizers. -/

/-- Unfolding equation for the monitor's normalizer on a cons cell. -/
lemma normalize_mac_cons (c : Char) (t : List Char) :
    normalize_mac (c :: t) =
      if isSepCD c = true then normalize_mac t
      else c.toLower :: normalize_mac t := by
  by_cases h : isSepCD c = true <;> simp [normalize_mac, List.filter, h]

/-- The monitor's normalizer is idempotent on every input. -/
lemma normalize_mac_idem (m : List Char) :
    normalize_mac (normalize_mac m) = normalize_mac m := by
  induction m with
  | nil => rfl
  | cons c t ih =>
    rw [normalize_mac_cons]
    by_cases h : isSepCD c = true
    · rw [if_pos h]
      exact ih
    · rw [if_neg h]
      rw [normalize_mac_cons,
        if_neg (by simp [notSep_toLower c (by simpa using h)]),
        toLower_toLower, ih]

/-- A string of twelve lowercase hex characters is a fixed point of the
cleaning pass of `normalize_mac_address`. -/
lemma pyCleaned_fixed (r : List Char) (h : exact12lower r = true) :
    pyCleaned r = r := by
  simp only [exact12lower, Bool.and_eq_true, decide_eq_true_eq,
    List.all_eq_true] at h
  obtain ⟨-, hall⟩ := h
  have hmap : r.map Char.toLower = r := by
    have : ∀ c ∈ r, c.toLower = c := fun c hc => (lowerHex_fix c (hall c hc)).1
    calc r.map Char.toLower = r.map id := List.map_congr_left this
    _ = r := List.map_id r
  rw [pyCleaned, hmap, List.filter_eq_self.mpr]
  intro c hc
  exact (lowerHex_fix c (hall c hc)).2.1

/-- The cleaned string contains only hex characters, so if its anchored
twelve-hex check succeeds at all, it succeeds without the trailing
newline allowance. -/
lemma pyAnchored_exact12_cleaned (m : List Char)
    (hp : pyAnchored exact12lower (pyCleaned m) = true) :
    exact12lower (pyCleaned m) = true := by
  simp only [pyAnchored, Bool.or_eq_true, Bool.and_eq_true,
    decide_eq_true_eq] at hp
  rcases hp with hp | ⟨hlast, -⟩
  · exact hp
  · exfalso
    have hmem : '\n' ∈ pyCleaned m := List.mem_of_getLast?_eq_some hlast
    have hhex : isHexChar '\n' = true := (List.mem_filter.mp hmem).2
    exact absurd hhex (by decide)

/-- The enrollment tool's normalizer is idempotent: renormalizing a
successful result gives the same result. -/
lemma normalize_mac_address_idem (m r : List Char)
    (h : normalize_mac_address m = some r) :
    normalize_mac_address r = some r := by
  simp only [normalize_mac_address] at h
  by_cases hp : pyAnchored exact12lower (pyCleaned m) = true
  · rw [if_pos hp] at h
    have hr : pyCleaned m = r := by injection h
    have h12 : exact12lower r = true := hr ▸ pyAnchored_exact12_cleaned m hp
    have hfix : pyCleaned r = r := pyCleaned_fixed r h12
    simp [normalize_mac_address, pyAnchored, hfix, h12]
  · rw [if_neg hp] at h
    exact absurd h (by simp)

/-! Spec-side descriptions of the accepted shapes, used to compare the
code's regexes with the spec's words. -/

/-- Modelled from the spec: six two-hex-digit octets uniformly joined
by the single separator `sep` (used for the colon-, dash- and
underscore-separated forms of section 4.1). -/
def sixOctetsSep (sep : Char) : List Char → Bool
  | [a, b, s1, c, d, s2, e, f, s3, g, h, s4, i, j, s5, k, l] =>
    isHexChar a && isHexChar b && decide (s1 = sep) &&
    isHexChar c && isHexChar d && decide (s2 = sep) &&
    isHexChar e && isHexChar f && decide (s3 = sep) &&
    isHexChar g && isHexChar h && decide (s4 = sep) &&
    isHexChar i && isHexChar j && decide (s5 = sep) &&
    isHexChar k && isHexChar l
  | _ => false

/-- Modelled from the spec: twelve contiguous hex characters. -/
def bare12 (m : List Char) : Bool :=
  decide (m.length = 12) && m.all isHexChar

/-- Modelled from the spec: three four-hex-digit quads joined by
dots. -/
def dotQuads : List Char → Bool
  | [a, b, c, d, p1, e, f, g, h, p2, i, j, k, l] =>
    isHexChar a && isHexChar b && isHexChar c && isHexChar d && decide (p1 = '.') &&
    isHexChar e && isHexChar f && isHexChar g && isHexChar h && decide (p2 = '.') &&
    isHexChar i && isHexChar j && isHexChar k && isHexChar l
  | _ => false

/-- Modelled from the spec: the four accepted MAC address forms of
section 4.1 — colon- or dash-separated octets, underscore-separated
octets, twelve contiguous hex characters, and dot-separated quads. -/
def specAccepted (m : List Char) : Bool :=
  sixOctetsSep ':' m || sixOctetsSep '-' m || sixOctetsSep '_' m ||
    bare12 m || dotQuads m

/-- Modelled from the spec: a token of six hex octets separated by
colons or dashes (each separator independently), the shape the log
monitor's scan is stated to trigger on. -/
def isMacTokenSpec : List Char → Bool
  | [a, b, s1, c, d, s2, e, f, s3, g, h, s4, i, j, s5, k, l] =>
    isHexChar a && isHexChar b && isSepCD s1 &&
    isHexChar c && isHexChar d && isSepCD s2 &&
    isHexChar e && isHexChar f && isSepCD s3 &&
    isHexChar g && isHexChar h && isSepCD s4 &&
    isHexChar i && isHexChar j && isSepCD s5 &&
    isHexChar k && isHexChar l
  | _ => false

/-- A uniformly colon- or dash-separated form matches the first
pattern of `validate_mac_format`. -/
lemma sixOctetsSep_pat1 (sep : Char) (hs : isSepCD sep = true) (m : List Char)
    (h : sixOctetsSep sep m = true) : pat1 m = true := by
  unfold sixOctetsSep at h
  split at h
  case _ a b s1 c d s2 e f s3 g hh s4 i j s5 k l =>
    simp only [Bool.and_eq_true, decide_eq_true_eq] at h
    obtain ⟨⟨⟨⟨⟨⟨⟨⟨⟨⟨⟨⟨⟨⟨⟨⟨ha, hb⟩, hs1⟩, hc⟩, hd⟩, hs2⟩, he⟩, hf⟩, hs3⟩,
      hg⟩, hhh⟩, hs4⟩, hi⟩, hj⟩, hs5⟩, hk⟩, hl⟩ := h
    subst hs1 hs2 hs3 hs4 hs5
    simp [pat1, ha, hb, hc, hd, he, hf, hg, hhh, hi, hj, hk, hl, hs]
  case _ => exact absurd h (by simp)

/-- The uniformly underscore-separated form matches the second
pattern of `validate_mac_format`. -/
lemma sixOctetsSep_pat2 (m : List Char)
    (h : sixOctetsSep '_' m = true) : pat2 m = true := by
  unfold sixOctetsSep at h
  split at h
  case _ a b s1 c d s2 e f s3 g hh s4 i j s5 k l =>
    simp only [Bool.and_eq_true, decide_eq_true_eq] at h
    obtain ⟨⟨⟨⟨⟨⟨⟨⟨⟨⟨⟨⟨⟨⟨⟨⟨ha, hb⟩, hs1⟩, hc⟩, hd⟩, hs2⟩, he⟩, hf⟩, hs3⟩,
      hg⟩, hhh⟩, hs4⟩, hi⟩, hj⟩, hs5⟩, hk⟩, hl⟩ := h
    subst hs1 hs2 hs3 hs4 hs5
    simp [pat2, ha, hb, hc, hd, he, hf, hg, hhh, hi, hj, hk, hl]
  case _ => exact absurd h (by simp)

/-- The dotted-quad form matches the fourth pattern of
`validate_mac_format`. -/
lemma dotQuads_pat4 (m : List Char) (h : dotQuads m = true) : pat4 m = true := by
  unfold dotQuads at h
  split at h
  case _ a b c d p1 e f g hh p2 i j k l =>
    simp only [Bool.and_eq_true, decide_eq_true_eq] at h
    obtain ⟨⟨⟨⟨⟨⟨⟨⟨⟨⟨⟨⟨⟨ha, hb⟩, hc⟩, hd⟩, hp1⟩, he⟩, hf⟩, hg⟩, hhh⟩, hp2⟩,
      hi⟩, hj⟩, hk⟩, hl⟩ := h
    subst hp1 hp2
    simp [pat4, ha, hb, hc, hd, he, hf, hg, hhh, hi, hj, hk, hl]
  case _ => exact absurd h (by simp)

/-- Every string in one of the spec's four accepted forms passes
`validate_mac_format`. -/
lemma specAccepted_validate (m : List Char) (h : specAccepted m = true) :
    validate_mac_format m = true := by
  simp only [specAccepted, Bool.or_eq_true] at h
  rcases h with ((((h | h) | h) | h) | h)
  · have := sixOctetsSep_pat1 ':' (by decide) m h
    simp [validate_mac_format, pyAnchored, this]
  · have := sixOctetsSep_pat1 '-' (by decide) m h
    simp [validate_mac_format, pyAnchored, this]
  · have := sixOctetsSep_pat2 m h
    simp [validate_mac_format, pyAnchored, this]
  · have : pat3 m = true := by simpa [bare12, pat3] using h
    simp [validate_mac_format, pyAnchored, this]
  · have := dotQuads_pat4 m h
    simp [validate_mac_format, pyAnchored, this]

/-! Characterization of the monitor's leftmost regex search. -/

/-- A successful anchored attempt returns a spec-shaped token that is a
prefix of the scanned text. -/
lemma matchAt_some (s m : List Char) (h : mac_pattern_matchAt s = some m) :
    isMacTokenSpec m = true ∧ ∃ rest, s = m ++ rest := by
  unfold mac_pattern_matchAt at h
  split at h
  case _ a b s1 c d s2 e f s3 g hh s4 i j s5 k l tail =>
    by_cases hc : (isHexChar a && isHexChar b && isSepCD s1 &&
        isHexChar c && isHexChar d && isSepCD s2 &&
        isHexChar e && isHexChar f && isSepCD s3 &&
        isHexChar g && isHexChar hh && isSepCD s4 &&
        isHexChar i && isHexChar j && isSepCD s5 &&
        isHexChar k && isHexChar l) = true
    · rw [if_pos hc] at h
      have hm : [a, b, s1, c, d, s2, e, f, s3, g, hh, s4, i, j, s5, k, l] = m := by
        injection h
      subst hm
      refine ⟨by simpa [isMacTokenSpec] using hc, tail, by simp⟩
    · rw [if_neg hc] at h
      exact absurd h (by simp)
  case _ => exact absurd h (by simp)

/-- An anchored attempt on a spec-shaped token followed by anything
succeeds and returns the token. -/
lemma token_matchAt (m post : List Char) (h : isMacTokenSpec m = true) :
    mac_pattern_matchAt (m ++ post) = some m := by
  unfold isMacTokenSpec at h
  split at h
  case _ a b s1 c d s2 e f s3 g hh s4 i j s5 k l =>
    simp only [List.cons_append, List.nil_append, mac_pattern_matchAt]
    rw [if_pos h]
  case _ => exact absurd h (by simp)

/-- If the search succeeds, the line contains a spec-shaped token. -/
lemma search_some (l : List Char)
    (h : (mac_pattern_search l).isSome = true) :
    ∃ pre tok post, l = pre ++ tok ++ post ∧ isMacTokenSpec tok = true := by
  induction l with
  | nil => simp [mac_pattern_search] at h
  | cons c rest ih =>
    rw [mac_pattern_search] at h
    cases hm : mac_pattern_matchAt (c :: rest) with
    | some m =>
      obtain ⟨htok, rest', hr⟩ := matchAt_some _ _ hm
      exact ⟨[], m, rest', by simpa using hr, htok⟩
    | none =>
      rw [hm] at h
      obtain ⟨pre, tok, post, he, ht⟩ := ih h
      exact ⟨c :: pre, tok, post, by simp [he], ht⟩

/-- If the line contains a spec-shaped token, the search succeeds. -/
lemma search_of_contains (pre tok post : List Char)
    (ht : isMacTokenSpec tok = true) :
    (mac_pattern_search (pre ++ tok ++ post)).isSome = true := by
  induction pre with
  | nil =>
    have hma := token_matchAt tok post ht
    cases tok with
    | nil => exact absurd ht (by simp [isMacTokenSpec])
    | cons t ts =>
      rw [List.nil_append, List.cons_append]
      rw [List.cons_append] at hma
      rw [mac_pattern_search, hma]
      rfl
  | cons p ps ih =>
    rw [List.cons_append, List.cons_append, mac_pattern_search]
    cases hm : mac_pattern_matchAt (p :: (ps ++ tok ++ post)) with
    | some m => rfl
    | none => exact ih

/-! Helpers for the users-file append. -/

/-- `takeWhile` of a not-newline test stops exactly at the first
newline. -/
lemma takeWhile_until_nl (p rest : List Char) (h : ∀ c ∈ p, c ≠ '\n') :
    List.takeWhile (fun c => c != '\n') (p ++ '\n' :: rest) = p := by
  induction p with
  | nil => simp [List.takeWhile]
  | cons a t ih =>
    have ha : a ≠ '\n' := h a (List.mem_cons_self a t)
    have ht : ∀ c ∈ t, c ≠ '\n' := fun c hc => h c (List.mem_cons_of_mem a hc)
    simp only [List.cons_append, List.takeWhile_cons, bne_iff_ne, ne_eq, ha,
      not_false_eq_true, if_true, ih ht]

/-- No character of the credential line of a normalized MAC is a
newline. -/
lemma recordLine_no_nl (nm : List Char) (h : exact12lower nm = true) :
    ∀ c ∈ recordLine nm, c ≠ '\n' := by
  simp only [exact12lower, Bool.and_eq_true, decide_eq_true_eq,
    List.all_eq_true] at h
  obtain ⟨-, hall⟩ := h
  intro c hc
  simp only [recordLine, List.append_assoc, List.mem_append] at hc
  rcases hc with hc | hc | hc | hc
  · exact (lowerHex_fix c (hall c hc)).2.2.2
  · revert hc
    revert c
    decide
  · exact (lowerHex_fix c (hall c hc)).2.2.2
  · revert hc
    revert c
    decide

example : validate_mac_format ("AA:BB:CC:DD:EE:FF").toList = true := by decide
example : validate_mac_format ("not-a-mac").toList = false := by decide
example : validate_mac_format ("aa:bb:cc:dd:ee").toList = false := by decide
example : normalize_mac_address ("AA:BB:CC:DD:EE:FF").toList
    = some ("aabbccddeeff").toList := by decide
example : normalize_mac ("DE:AD:BE:EF:00:01").toList
    = ("deadbeef0001").toList := by decide
example : normalize_mac ("aabb.ccdd.eeff").toList
    = ("aabb.ccdd.eeff").toList := by decide
example : is_mac_authorized ("aabbccddee").toList
    (.content ("aabbccddeeff").toList) = true := by decide
example : mac_pattern_search ("client DE:AD:BE:EF:00:01 up").toList
    = some ("DE:AD:BE:EF:00:01").toList := by decide
example : mac_pattern_search ("client deadbeef0001 up").toList = none := by decide
example :
    monitor_log_for_mac (.content ("deadbeef0001").toList)
      [("x DE:AD:BE:EF:00:01 y").toList]
    = [MonEvent.authorized ("deadbeef0001").toList] := by decide
example :
    monitor_log_for_mac .absent
      [("x DE:AD:BE:EF:00:01 y").toList, ("x DE:AD:BE:EF:00:01 y").toList]
    = [MonEvent.executed ("deadbeef0001").toList] := by decide
example :
    mac_add_main false true false ("AA:BB:CC:DD:EE:FF").toList [] .absent
    = ([], .completed) := by decide
example :
    mac_add_main true false false ("AA:BB:CC:DD:EE:FF").toList ("n").toList
      (.content ("aabbccddeeff").toList)
    = ([], .exited 0) := by decide
example :
    mac_add_main true false true ("AA:BB:CC:DD:EE:FF").toList ("Y").toList
      (.content ("aabbccddeeff").toList)
    = ([.backup, .writeUsers, .restartService], .completed) := by decide

/-! The claims. -/

/-- C1: for every line read by the authorization-aware monitor whose
first regex match normalizes to a MAC present (as a substring) in the
authorization file, the monitor logs it as authorized and continues the
loop without executing the action command; for a line whose matched MAC
is absent, it executes the placeholder command exactly once and
terminates, never processing any further line. -/
theorem c1_monitor_branching
    (fs : FileState) (line : List Char) (rest : List (List Char)) (m : List Char)
    (hm : mac_pattern_search line = some m) :
    (is_mac_authorized (normalize_mac m) fs = true →
      monitor_log_for_mac fs (line :: rest) =
        MonEvent.authorized (normalize_mac m) :: monitor_log_for_mac fs rest) ∧
    (is_mac_authorized (normalize_mac m) fs = false →
      monitor_log_for_mac fs (line :: rest) =
        [MonEvent.executed (normalize_mac m)]) := by
  constructor <;> intro h <;>
  · simp only [monitor_log_for_mac]
    rw [hm]
    simp [h]

/-- C1 witness: with `deadbeef0001` authorized, a line carrying
`DE:AD:BE:EF:00:01` is logged and monitoring continues; with an empty
store the command runs once and the later line is never processed. -/
theorem c1_witness :
    monitor_log_for_mac (.content ("deadbeef0001").toList)
        [("port DE:AD:BE:EF:00:01 learned").toList]
      = [MonEvent.authorized ("deadbeef0001").toList] ∧
    monitor_log_for_mac .absent
        [("port DE:AD:BE:EF:00:01 learned").toList, ("later line").toList]
      = [MonEvent.executed ("deadbeef0001").toList] := by
  constructor
  · have h := (c1_monitor_branching (.content ("deadbeef0001").toList)
      (("port DE:AD:BE:EF:00:01 learned").toList) []
      (("DE:AD:BE:EF:00:01").toList) (by decide)).1 (by decide)
    exact h.trans (by decide)
  · have h := (c1_monitor_branching .absent
      (("port DE:AD:BE:EF:00:01 learned").toList) [("later line").toList]
      (("DE:AD:BE:EF:00:01").toList) (by decide)).2 (by decide)
    exact h.trans (by decide)

/-- C2: in both scripts the existence check returns true exactly when
the normalized MAC occurs as a substring of the file text; in
particular a strict prefix of a stored MAC is reported present. -/
theorem c2_existence_is_substring :
    (∀ nm text : List Char,
      (is_mac_authorized nm (.content text) = true ↔ nm <:+: text) ∧
      (is_mac_already_exists (.content text) nm = Except.ok true ↔ nm <:+: text)) ∧
    is_mac_authorized ("aabbccddee").toList
      (.content ("aabbccddeeff").toList) = true ∧
    is_mac_already_exists (.content ("aabbccddeeff").toList)
      ("aabbccddee").toList = Except.ok true := by
  refine ⟨fun nm text => ⟨?_, ?_⟩, by decide, by decide⟩
  · simp [is_mac_authorized]
  · constructor
    · intro h
      have : decide (nm <:+: text) = true := by
        simpa [is_mac_already_exists] using h
      simpa using this
    · intro h
      simp [is_mac_already_exists, h]

/-- C3 counterexample: the log monitor's normalization step rejects
nothing — `normalize_mac` maps the invalid input `not-a-mac` to
`notamac` with no error, so it is false that both scripts reject
inputs outside the four accepted forms; and `validate_mac_format`
accepts a bare MAC followed by a newline, which is outside the four
forms (Python's `$` anchor tolerates one trailing newline). -/
theorem c3_counterexample_no_rejection :
    normalize_mac ("not-a-mac").toList = ("notamac").toList ∧
    validate_mac_format ("aabbccddeeff\n").toList = true := by
  constructor <;> decide

/-- C3 amended: the enrollment tool's validator accepts every string
in one of the four accepted forms and rejects `not-a-mac` and
`aa:bb:cc:dd:ee` (it additionally tolerates one trailing newline); the
log monitor's `normalize_mac` performs no validation and signals no
error on any input. -/
theorem c3_amended_validation :
    (∀ m : List Char, specAccepted m = true → validate_mac_format m = true) ∧
    validate_mac_format ("not-a-mac").toList = false ∧
    validate_mac_format ("aa:bb:cc:dd:ee").toList = false ∧
    normalize_mac ("not-a-mac").toList = ("notamac").toList :=
  ⟨specAccepted_validate, by decide, by decide, by decide⟩

/-- C3 witness: the amended acceptance direction at a colon-separated
input. -/
theorem c3_witness :
    specAccepted ("AA:BB:CC:DD:EE:FF").toList = true ∧
    validate_mac_format ("AA:BB:CC:DD:EE:FF").toList = true :=
  ⟨by decide, c3_amended_validation.1 (("AA:BB:CC:DD:EE:FF").toList) (by decide)⟩

/-- C4 counterexample: the enrollment tool's existence check does not
return false on a permission error — the uncaught `PermissionError`
propagates (modelled as `Except.error`). -/
theorem c4_counterexample_permission_error :
    is_mac_already_exists FileState.denied ("deadbeef0001").toList
      = Except.error () ∧
    is_mac_already_exists FileState.denied ("deadbeef0001").toList
      ≠ Except.ok false := by
  constructor <;> decide

/-- C4 amended: the log monitor's existence check returns false when
the file is absent or unreadable; the enrollment tool's check returns
false only when the file is absent, and a permission error propagates
as an exception. -/
theorem c4_amended_accessor_failures (nm : List Char) :
    is_mac_authorized nm FileState.absent = false ∧
    is_mac_authorized nm FileState.denied = false ∧
    is_mac_already_exists FileState.absent nm = Except.ok false ∧
    is_mac_already_exists FileState.denied nm = Except.error () :=
  ⟨rfl, rfl, rfl, rfl⟩

/-- C5: appending a record puts the credential line first, keeps the
whole prior content below it, and on a missing file produces exactly
the new record. -/
theorem c5_append_preserves (existing : Option (List Char)) (nm : List Char)
    (h : exact12lower nm = true) :
    List.takeWhile (fun c => c != '\n') (add_mac_to_users_file existing nm)
      = recordLine nm ∧
    existing.getD [] <:+ add_mac_to_users_file existing nm ∧
    (existing = none → add_mac_to_users_file existing nm = newEntry nm) := by
  refine ⟨?_, ?_, ?_⟩
  · have hnl := recordLine_no_nl nm h
    unfold add_mac_to_users_file newEntry
    simp only [List.append_assoc, List.singleton_append]
    exact takeWhile_until_nl _ _ hnl
  · exact List.suffix_append _ _
  · intro he
    subst he
    simp [add_mac_to_users_file]

/-- C5 witness: appending `deadbeef0001` on top of a one-line file. -/
theorem c5_witness :
    exact12lower (("deadbeef0001").toList) = true ∧
    List.takeWhile (fun c => c != '\n')
        (add_mac_to_users_file (some (("old line").toList))
          (("deadbeef0001").toList))
      = recordLine (("deadbeef0001").toList) :=
  ⟨by decide,
    (c5_append_preserves (some (("old line").toList))
      (("deadbeef0001").toList) (by decide)).1⟩

/-- C6 counterexample: in the log monitor, the dotted form is not
canonicalized — `normalize_mac` keeps the dots, so not all valid
variants of the same address normalize to `aabbccddeeff` in both
scripts. -/
theorem c6_counterexample_dot_form :
    normalize_mac ("aabb.ccdd.eeff").toList = ("aabb.ccdd.eeff").toList ∧
    normalize_mac ("aabb.ccdd.eeff").toList ≠ ("aabbccddeeff").toList := by
  constructor <;> decide

/-- C6 amended: normalization is pure and idempotent in both scripts
(the monitor's normalizer on every input, the enrollment tool's on
every successfully normalized input); the enrollment tool maps all four
notational variants to `aabbccddeeff`, while the monitor canonicalizes
only the colon- and dash-separated forms, leaving underscore- and
dot-separated inputs with their separators. -/
theorem c6_amended_idempotence :
    (∀ m : List Char, normalize_mac (normalize_mac m) = normalize_mac m) ∧
    (∀ m r : List Char, normalize_mac_address m = some r →
      normalize_mac_address r = some r) ∧
    normalize_mac_address ("AA:BB:CC:DD:EE:FF").toList
      = some (("aabbccddeeff").toList) ∧
    normalize_mac_address ("aa-bb-cc-dd-ee-ff").toList
      = some (("aabbccddeeff").toList) ∧
    normalize_mac_address ("aabb.ccdd.eeff").toList
      = some (("aabbccddeeff").toList) ∧
    normalize_mac_address ("aabbccddeeff").toList
      = some (("aabbccddeeff").toList) ∧
    normalize_mac ("AA:BB:CC:DD:EE:FF").toList = ("aabbccddeeff").toList ∧
    normalize_mac ("aa-bb-cc-dd-ee-ff").toList = ("aabbccddeeff").toList ∧
    normalize_mac ("de_ad_be_ef_00_01").toList = ("de_ad_be_ef_00_01").toList := by
  refine ⟨normalize_mac_idem, normalize_mac_address_idem,
    ?_, ?_, ?_, ?_, ?_, ?_, ?_⟩ <;> decide

/-- C6 witness: the enrollment-tool idempotence applied to the result
of normalizing a colon-separated input. -/
theorem c6_witness :
    normalize_mac_address ("aabbccddeeff").toList
      = some (("aabbccddeeff").toList) :=
  c6_amended_idempotence.2.1 (("AA:BB:CC:DD:EE:FF").toList)
    (("aabbccddeeff").toList) (by decide)

/-- C7: the monitor's line scan triggers exactly on lines containing
six colon- or dash-separated hex octets; a matched
`DE:AD:BE:EF:00:01` normalizes to `deadbeef0001`, and lines whose MAC
appears only in bare, underscore- or dot-separated form do not
trigger. -/
theorem c7_scan_characterization :
    (∀ line : List Char, (mac_pattern_search line).isSome = true ↔
      ∃ pre tok post, line = pre ++ tok ++ post ∧ isMacTokenSpec tok = true) ∧
    mac_pattern_search ("eth0 DE:AD:BE:EF:00:01 assoc").toList
      = some (("DE:AD:BE:EF:00:01").toList) ∧
    normalize_mac ("DE:AD:BE:EF:00:01").toList = ("deadbeef0001").toList ∧
    mac_pattern_search ("eth0 deadbeef0001 assoc").toList = none ∧
    mac_pattern_search ("eth0 de_ad_be_ef_00_01 assoc").toList = none ∧
    mac_pattern_search ("eth0 dead.beef.0001 assoc").toList = none := by
  refine ⟨fun line => ⟨search_some line, ?_⟩,
    by decide, by decide, by decide, by decide, by decide⟩
  rintro ⟨pre, tok, post, rfl, ht⟩
  exact search_of_contains pre tok post ht

/-- C7 witness: the characterization applied to a line holding a
colon-separated MAC. -/
theorem c7_witness :
    (mac_pattern_search ("up DE-AD-BE-EF-00-01 now").toList).isSome = true :=
  (c7_scan_characterization.1 (("up DE-AD-BE-EF-00-01 now").toList)).mpr
    ⟨("up ").toList, ("DE-AD-BE-EF-00-01").toList, (" now").toList,
      by decide, by decide⟩

/-- C8: with the dry-run flag and a valid MAC, the enrollment tool
completes normally with no backup, no file write and no external
command, whatever the privilege level, the file state, and the other
flag. -/
theorem c8_dry_run_no_effects
    (elevated noReboot : Bool) (mac response : List Char) (fs : FileState)
    (hv : validate_mac_format mac = true) :
    mac_add_main elevated true noReboot mac response fs
      = ([], MainOutcome.completed) := by
  obtain ⟨hn, -⟩ := validate_normalize mac hv
  simp [mac_add_main, hv, hn]

/-- C8 witness: a dry run as a non-elevated user on a valid MAC. -/
theorem c8_witness :
    validate_mac_format ("AA:BB:CC:DD:EE:FF").toList = true ∧
    mac_add_main false true false (("AA:BB:CC:DD:EE:FF").toList) []
      FileState.absent = ([], MainOutcome.completed) :=
  ⟨by decide,
    c8_dry_run_no_effects false false (("AA:BB:CC:DD:EE:FF").toList) []
      FileState.absent (by decide)⟩

/-- C9: every input accepted by `validate_mac_format` normalizes
without error to exactly twelve lowercase hex characters, so the
error branch of `normalize_mac_address` is unreachable after
validation succeeds. -/
theorem c9_validation_implies_normalization (mac : List Char)
    (hv : validate_mac_format mac = true) :
    ∃ nm, normalize_mac_address mac = some nm ∧ nm.length = 12 ∧
      nm.all isLowerHexChar = true := by
  obtain ⟨hn, h12⟩ := validate_normalize mac hv
  simp only [exact12lower, Bool.and_eq_true, decide_eq_true_eq] at h12
  exact ⟨pyCleaned mac, hn, h12.1, h12.2⟩

/-- C9 witness: the implication at a dotted-quad input. -/
theorem c9_witness :
    validate_mac_format ("AABB.CCDD.EEFF").toList = true ∧
    ∃ nm, normalize_mac_address ("AABB.CCDD.EEFF").toList = some nm ∧
      nm.length = 12 ∧ nm.all isLowerHexChar = true :=
  ⟨by decide,
    c9_validation_implies_normalization (("AABB.CCDD.EEFF").toList) (by decide)⟩

/-- C10: when the normalized MAC is already present and dry-run is off,
every prompt response other than `y`/`Y` exits with status 0 and no
effect on the users file, and a `y`/`Y` response leads to backup,
append, and restart or reboot. -/
theorem c10_prompt_gates_mutation
    (noReboot : Bool) (mac response nm : List Char) (fs : FileState)
    (hv : validate_mac_format mac = true)
    (hn : normalize_mac_address mac = some nm)
    (hex : is_mac_already_exists fs nm = Except.ok true) :
    (response ≠ ("y").toList → response ≠ ("Y").toList →
      mac_add_main true false noReboot mac response fs
        = ([], MainOutcome.exited 0)) ∧
    ((response = ("y").toList ∨ response = ("Y").toList) →
      mac_add_main true false noReboot mac response fs
        = ([MainEffect.backup, MainEffect.writeUsers,
            if noReboot then MainEffect.restartService
            else MainEffect.rebootServer],
           MainOutcome.completed)) := by
  have hfs : ∃ text, fs = .content text := by
    cases fs with
    | content t => exact ⟨t, rfl⟩
    | absent => simp [is_mac_already_exists] at hex
    | denied => simp [is_mac_already_exists] at hex
  obtain ⟨text, rfl⟩ := hfs
  constructor
  · intro h1 h2
    have hne : ¬ response.map Char.toLower = ['y'] := by
      intro hmap
      rcases (map_toLower_eq_y response).mp hmap with rfl | rfl
      · exact h1 rfl
      · exact h2 rfl
    simp [mac_add_main, hv, hn, hex, hne]
  · intro h
    have heq : response.map Char.toLower = ("y").toList :=
      (map_toLower_eq_y response).mpr h
    simp [mac_add_main, hv, hn, hex, heq]

/-- C10 witness: with `aabbccddeeff` already stored, response `n`
aborts with exit status 0 and no effects, while response `Y` proceeds
to backup, write and service restart. -/
theorem c10_witness :
    mac_add_main true false true (("AA:BB:CC:DD:EE:FF").toList) (("n").toList)
      (.content (("aabbccddeeff").toList)) = ([], MainOutcome.exited 0) ∧
    mac_add_main true false true (("AA:BB:CC:DD:EE:FF").toList) (("Y").toList)
      (.content (("aabbccddeeff").toList))
      = ([MainEffect.backup, MainEffect.writeUsers, MainEffect.restartService],
         MainOutcome.completed) := by
  constructor
  · exact (c10_prompt_gates_mutation true (("AA:BB:CC:DD:EE:FF").toList)
      (("n").toList) (("aabbccddeeff").toList)
      (.content (("aabbccddeeff").toList))
      (by decide) (by decide) (by decide)).1 (by decide) (by decide)
  · have h := (c10_prompt_gates_mutation true (("AA:BB:CC:DD:EE:FF").toList)
      (("Y").toList) (("aabbccddeeff").toList)
      (.content (("aabbccddeeff").toList))
      (by decide) (by decide) (by decide)).2 (Or.inr rfl)
    exact h.trans (by decide)
